import Mathlib

/-!
Verification development for the proposal-generation service in src/main.py.

The Python source is shallowly embedded: pure helpers become Lean functions
over lists of characters and rational numbers (Python floats are modelled as
rationals), the openpyxl worksheet becomes an explicit Sheet value with total
row/column indexed cell and row-height maps, and the mutating spreadsheet
operations become Sheet-to-Sheet functions.  Row and column indices are
1-based as in openpyxl.
-/

/-- The whitespace characters recognised by Python's str.strip() and by the
regex class backslash-s for ASCII text: space, tab, newline, carriage return,
vertical tab and form feed. -/
def pyIsSpace (c : Char) : Bool :=
  c = ' ' || c = '\t' || c = '\n' || c = '\r' || c = '\x0b' || c = '\x0c'

/-- Left part of Python str.strip(): drop leading whitespace. -/
def pyStripLeft (s : List Char) : List Char :=
  s.dropWhile pyIsSpace

/-- Right part of Python str.strip(): drop trailing whitespace. -/
def pyStripRight (s : List Char) : List Char :=
  (s.reverse.dropWhile pyIsSpace).reverse

/-- Python str.strip(): drop whitespace from both ends. -/
def pyStrip (s : List Char) : List Char :=
  pyStripRight (pyStripLeft s)

/-- Value of a decimal digit string, most significant digit first. -/
def digitsToNat (s : List Char) : Nat :=
  s.foldl (fun a c => a * 10 + (c.toNat - '0'.toNat)) 0

/-- Python float(s) on a string argument, restricted to the finite decimal
literals the estimate payload uses: optional surrounding whitespace, an
optional sign, then digits with at most one decimal point and at least one
digit overall.  Exponent forms, inf/nan and digit underscores, which Python
also accepts, are outside the modelled subset; no theorem depends on them.
Returns none where Python float() raises ValueError. -/
def pyParseFloat (s : List Char) : Option ℚ :=
  let t := pyStrip s
  let p :=
    match t with
    | '+' :: r => ((1 : ℚ), r)
    | '-' :: r => ((-1 : ℚ), r)
    | r => ((1 : ℚ), r)
  let intPart := p.2.takeWhile Char.isDigit
  let rest := p.2.dropWhile Char.isDigit
  match rest with
  | [] => if intPart = [] then none else some (p.1 * digitsToNat intPart)
  | '.' :: frac =>
      if frac.all Char.isDigit ∧ (intPart ≠ [] ∨ frac ≠ []) then
        some (p.1 * ((digitsToNat intPart : ℚ) + (digitsToNat frac : ℚ) / (10 ^ frac.length)))
      else none
  | _ => none

/-- The JSON-ish scalar values that estimate fields and worksheet cells can
hold after json.loads: null, booleans, numbers (modelled as rationals) and
strings (modelled as character lists). -/
inductive JVal where
  | null
  | b (v : Bool)
  | num (q : ℚ)
  | str (s : List Char)
deriving DecidableEq

/-- Python truthiness of a JSON-ish value: None, False, zero and the empty
string are falsy. -/
def pyFalsy : JVal → Bool
  | .null => true
  | .b v => !v
  | .num q => q = 0
  | .str s => s = []

/-- Python str() of a JSON-ish value.  The string and None cases are exact;
numeric and boolean cell text is modelled approximately (Python renders
floats like 10.0) and no theorem depends on those cases, since the only
text column the code measures holds strings. -/
def pyStr : JVal → List Char
  | .null => "None".toList
  | .b true => "True".toList
  | .b false => "False".toList
  | .num q =>
      (if q.num < 0 then ['-'] else []) ++ Nat.toDigits 10 q.num.natAbs
        ++ '/' :: Nat.toDigits 10 q.den
  | .str s => s

/-- safe_str from src/main.py: empty string for None, else str(x). -/
def safe_str (x : JVal) : List Char :=
  match x with
  | .null => []
  | v => pyStr v

/-- safe_num from src/main.py: None for null or empty-string input, the
number itself for numeric input (booleans coerce to 0/1 as float() does),
and the parsed value for a string, with parse failure yielding None instead
of an exception. -/
def safe_num : JVal → Option ℚ
  | .null => none
  | .b v => some (if v then 1 else 0)
  | .num q => some q
  | .str s => if s = [] then none else pyParseFloat s

/-- Splits a character list at the first dash, returning the part before the
dash and the part after it, or none when no dash occurs. -/
def splitAtFirstDash : List Char → Option (List Char × List Char)
  | [] => none
  | c :: rest =>
      if c = '-' then some ([], rest)
      else
        match splitAtFirstDash rest with
        | none => none
        | some p => some (c :: p.1, p.2)

/-- One application of re.split with the pattern whitespace-run, dash,
whitespace-run and maxsplit 1.  The leftmost match of that pattern is
anchored at the first dash of the string, with the two greedy whitespace
stars absorbing the maximal whitespace runs adjacent to that dash, so the
split parts are the text before the first dash without its trailing
whitespace and the text after it without its leading whitespace. -/
def reSplitDashOnce (s : List Char) : Option (List Char × List Char) :=
  match splitAtFirstDash s with
  | none => none
  | some p => some (pyStripRight p.1, pyStripLeft p.2)

/-- The characters the guardrail regex of split_sign_type_and_summary allows
in a sign code: ASCII letters, digits, dot, slash, ampersand, underscore. -/
def codeCharOK (c : Char) : Bool :=
  c.isAlpha || c.isDigit || c = '.' || c = '/' || c = '&' || c = '_'

/-- split_sign_type_and_summary from src/main.py.  none models a missing
(Python None) argument, which is falsy like the empty string.  The input is
stripped, split once at the first dash delimiter, and the left part is
accepted as a code only when it is a nonempty run of allowed code
characters; otherwise the whole stripped string is returned with an empty
summary. -/
def split_sign_type_and_summary (raw_sign_type : Option (List Char)) :
    List Char × List Char :=
  match raw_sign_type with
  | none => ([], [])
  | some raw =>
      if raw = [] then ([], [])
      else
        let s := pyStrip raw
        match reSplitDashOnce s with
        | some p =>
            let code := pyStrip p.1
            let summary := pyStrip p.2
            if code ≠ [] ∧ code.all codeCharOK then (code, summary) else (s, [])
        | none => (s, [])

/-- A Component sub-record of a SignType entry (description, dimensions,
quantity).  The generator never reads these fields; they are carried to
state that fact. -/
structure Component where
  description : JVal
  dimensions : JVal
  qty : JVal
deriving DecidableEq

/-- A SignType entry of the estimate payload, restricted to the fields the
description composer can observe.  Missing dictionary keys are JVal.null,
matching dict.get. -/
structure SignTypeEntry where
  sign_type : JVal
  description : JVal
  components : List Component
deriving DecidableEq

/-- build_description_one_cell from src/main.py: the description cell shows
only the summary split out of sign_type, falling back to the entry's own
description field when the summary is empty. -/
def build_description_one_cell (sign : SignTypeEntry) : List Char :=
  let raw_sign_type := safe_str sign.sign_type
  let summary := (split_sign_type_and_summary (some raw_sign_type)).2
  if summary ≠ [] then pyStrip summary
  else pyStrip (safe_str sign.description)

/-- A line item of the shipping or installation ancillary groups, carrying
its extended_total field (JVal.null when the key is absent). -/
structure LineItem where
  extended_total : JVal
deriving DecidableEq

/-- sum_extended from src/main.py: None for a missing or empty list,
otherwise the sum of the extended_total fields that parse numerically, with
a found flag so that a list with no parsable entry yields None rather
than zero. -/
def sum_extended (items : Option (List LineItem)) : Option ℚ :=
  match items with
  | none => none
  | some l =>
      if l = [] then none
      else
        let r := l.foldl
          (fun (acc : ℚ × Bool) it =>
            match safe_num it.extended_total with
            | some v => (acc.1 + v, true)
            | none => acc)
          ((0 : ℚ), false)
        if r.2 then some r.1 else none

/-- Style attributes of one cell: font, fill, border, alignment, number
format and protection, modelled as opaque tokens.  copy_row_style in
src/main.py copies every one of these attributes by value, which in this
model is copying the whole record. -/
structure CellStyle where
  font : Nat
  fill : Nat
  border : Nat
  alignment : Nat
  number_format : Nat
  protection : Nat
deriving DecidableEq

/-- The style openpyxl gives a freshly created (inserted) cell. -/
def defaultStyle : CellStyle := ⟨0, 0, 0, 0, 0, 0⟩

/-- One worksheet cell: its value (none when empty) and its style. -/
structure Cell where
  value : Option JVal
  style : CellStyle
deriving DecidableEq

/-- The empty unstyled cell that row insertion leaves behind. -/
def blankCell : Cell := ⟨none, defaultStyle⟩

/-- An A1-style cell reference, parsed: column letters and row number.  The
regex of shift_cell_ref always succeeds on references of this shape, so the
unparsed fallback branch has no counterpart here. -/
structure CellRef where
  col : List Char
  row : Int
deriving DecidableEq

/-- A merged range, parsed into its two corner references.  A single-cell
range without a colon is represented with both corners equal, exactly what
parse_range in src/main.py returns for it. -/
structure MergeRange where
  a : CellRef
  b : CellRef
deriving DecidableEq

/-- Column letters to openpyxl's 1-based column number (A=1, ..., Z=26,
AA=27, ...). -/
def letterToCol (l : List Char) : Nat :=
  l.foldl (fun a c => a * 26 + (c.toNat - 'A'.toNat + 1)) 0

/-- An openpyxl worksheet.  The cell grid and the row-height map are total
functions on 1-based indices because openpyxl materialises any cell or row
dimension on access; maxCol and maxRow model ws.max_column and ws.max_row,
the extent of the populated region.  Row insertion and deletion move cells
but, as in openpyxl, do not move row_dimensions heights or merged ranges --
which is exactly why src/main.py captures footer heights and merge ranges
itself and restores them after the resize. -/
structure Sheet where
  cell : Nat → Nat → Cell
  height : Nat → Option ℚ
  merges : List MergeRange
  maxCol : Nat
  maxRow : Nat

/-- write_cell from src/main.py: assign a value to the referenced cell,
leaving its style alone. -/
def write_cell (ws : Sheet) (ref : CellRef) (v : JVal) : Sheet :=
  { ws with
    cell := fun r c =>
      if r = ref.row.toNat ∧ c = letterToCol ref.col then
        ⟨some v, (ws.cell r c).style⟩
      else ws.cell r c }

/-- shift_cell_ref from src/main.py: add the row offset to the row part of
an A1 reference, keeping the column letters. -/
def shift_cell_ref (ref : CellRef) (row_offset : Int) : CellRef :=
  ⟨ref.col, ref.row + row_offset⟩

/-- ws.insert_rows(idx, amount): every cell at a row at or below idx moves
down by amount and the vacated rows hold blank cells.  Heights and merges
stay put (openpyxl does not adjust them). -/
def insert_rows (ws : Sheet) (idx amount : Nat) : Sheet :=
  { ws with
    cell := fun r c =>
      if r < idx then ws.cell r c
      else if r < idx + amount then blankCell
      else ws.cell (r - amount) c,
    maxRow := ws.maxRow + amount }

/-- ws.delete_rows(idx, amount): the amount rows starting at idx disappear
and everything below moves up.  Heights and merges stay put. -/
def delete_rows (ws : Sheet) (idx amount : Nat) : Sheet :=
  { ws with
    cell := fun r c => if r < idx then ws.cell r c else ws.cell (r + amount) c,
    maxRow := ws.maxRow - amount }

/-- copy_row_style from src/main.py: give dst_row the row height of src_row
and, for every column from 1 to max_col, the style of src_row's cell in
that column, leaving cell values alone. -/
def copy_row_style (ws : Sheet) (src_row dst_row max_col : Nat) : Sheet :=
  { ws with
    height := fun r => if r = dst_row then ws.height src_row else ws.height r,
    cell := fun r c =>
      if r = dst_row ∧ 1 ≤ c ∧ c ≤ max_col then
        ⟨(ws.cell r c).value, (ws.cell src_row c).style⟩
      else ws.cell r c }

/-- save_merged_ranges from src/main.py: the current merged ranges. -/
def save_merged_ranges (ws : Sheet) : List MergeRange :=
  ws.merges

/-- unmerge_all from src/main.py applied to the saved list: no merged range
survives. -/
def unmerge_all (ws : Sheet) : Sheet :=
  { ws with merges := [] }

/-- shift_range_overlap_safe from src/main.py: a merged range is shifted by
row_offset when its top row is at or below the footer boundary, or when it
straddles the boundary (top above, bottom at or below); a range entirely
above the boundary is untouched.  A shifted range moves as one unit: both
corner rows get the same offset. -/
def shift_range_overlap_safe (rng : MergeRange) (footer_start_row row_offset : Int) :
    MergeRange :=
  let top := min rng.a.row rng.b.row
  let bottom := max rng.a.row rng.b.row
  if footer_start_row ≤ top ∨ (top < footer_start_row ∧ footer_start_row ≤ bottom) then
    ⟨⟨rng.a.col, rng.a.row + row_offset⟩, ⟨rng.b.col, rng.b.row + row_offset⟩⟩
  else rng

/-- restore_merges from src/main.py: re-merge every saved range at the
position shift_range_overlap_safe corrects it to. -/
def restore_merges (ws : Sheet) (merges : List MergeRange)
    (footer_start_row row_offset : Int) : Sheet :=
  { ws with
    merges := merges.map (fun rng => shift_range_overlap_safe rng footer_start_row row_offset) }

/-- capture_row_heights from src/main.py: the explicit height (or none) of
every row from start_row to end_row, keyed by row number. -/
def capture_row_heights (ws : Sheet) (start_row end_row : Nat) : List (Nat × Option ℚ) :=
  (List.range' start_row (end_row + 1 - start_row)).map (fun r => (r, ws.height r))

/-- restore_row_heights from src/main.py: each captured height is applied to
its original row shifted by row_offset. -/
def restore_row_heights (ws : Sheet) (heights : List (Nat × Option ℚ)) (row_offset : Int) :
    Sheet :=
  heights.foldl
    (fun acc p =>
      { acc with
        height := fun r => if (r : Int) = (p.1 : Int) + row_offset then p.2 else acc.height r })
    ws

/-- The style-copy loop of the insertion branch of
adjust_body_rows_preserve_footer: for r in range(footer_start,
footer_start + amount), copy row body_end's style onto row r. -/
def style_inserted_rows (ws : Sheet) (src footer_start max_col amount : Nat) : Sheet :=
  (List.range amount).foldl
    (fun acc k => copy_row_style acc src (footer_start + k) max_col) ws

/-- adjust_body_rows_preserve_footer from src/main.py: make the body region
hold sign_count + extra_blank_rows rows by inserting styled rows at the
footer boundary or deleting rows just past the new content end, saving the
merged ranges first and re-merging them at shifted positions afterwards.
Returns the new sheet and the signed row offset applied to the footer. -/
def adjust_body_rows_preserve_footer (ws : Sheet) (sign_count body_start body_end
    extra_blank_rows : Nat) : Sheet × Int :=
  let base_rows : Int := (body_end : Int) - (body_start : Int) + 1
  let needed_rows : Int := (sign_count : Int) + (extra_blank_rows : Int)
  let footer_start : Nat := body_end + 1
  let diff : Int := needed_rows - base_rows
  if diff = 0 then (ws, 0)
  else
    let merges := save_merged_ranges ws
    let ws1 := unmerge_all ws
    let max_col := ws1.maxCol
    let ws2 :=
      if 0 < diff then
        style_inserted_rows (insert_rows ws1 footer_start diff.toNat)
          body_end footer_start max_col diff.toNat
      else
        delete_rows ws1 (body_start + sign_count + extra_blank_rows) (-diff).toNat
    (restore_merges ws2 merges (footer_start : Int) diff, diff)

/-- The per-line display count of the wrapping loop in
approximate_autofit_rows: an empty line counts 1, a nonempty line counts
its 60-character wrap count, at least 1. -/
def wrappedLineCountPy (ln : List Char) : Nat :=
  max 1 (ln.length / 60 + (if ln.length % 60 ≠ 0 then 1 else 0))

/-- The line count approximate_autofit_rows assigns to one cell text: split
at explicit newlines, then sum the per-line wrap counts. -/
def pyLineCount (text : List Char) : Nat :=
  (text.splitOn '\n').foldl
    (fun acc ln => acc + (if ln = [] then 1 else wrappedLineCountPy ln)) 0

/-- The max_lines computation of approximate_autofit_rows for one row:
start from 1 and fold over the text columns, skipping falsy cell values. -/
def autofit_row_lines (ws : Sheet) (r : Nat) (text_cols : List (List Char)) : Nat :=
  text_cols.foldl
    (fun m col =>
      match (ws.cell r (letterToCol col)).value with
      | none => m
      | some v => if pyFalsy v then m else max m (pyLineCount (pyStr v)))
    1

/-- approximate_autofit_rows from src/main.py: every row from row_start to
row_end gets height max(min_height, max_lines * 15), where max_lines counts
the display lines of the row's text columns at 60 characters per line. -/
def approximate_autofit_rows (ws : Sheet) (row_start row_end : Nat)
    (text_cols : List (List Char)) (min_height : ℚ) : Sheet :=
  (List.range' row_start (row_end + 1 - row_start)).foldl
    (fun acc r =>
      { acc with
        height := fun x =>
          if x = r then some (max min_height ((autofit_row_lines acc r text_cols : ℚ) * 15))
          else acc.height x })
    ws

/-- The fixed subtotal cell of the template footer (src/main.py line 446). -/
def SUBTOTAL_CELL : CellRef := ⟨['F'], 48⟩

/-- The fixed shipping cell of the template footer (src/main.py line 447). -/
def SHIPPING_CELL : CellRef := ⟨['F'], 49⟩

/-- The fixed installation cell of the template footer (src/main.py line 448). -/
def INSTALL_CELL : CellRef := ⟨['F'], 53⟩

/-- The fixed grand-total cell of the template footer (src/main.py line 449). -/
def TOTAL_CELL : CellRef := ⟨['F'], 54⟩

/-- The totals block of generate_proposal (src/main.py lines 446-458): each
of the four totals values is written to its fixed cell shifted by the
footer row offset, but only when the value is present; an absent value
leaves its cell untouched. -/
def write_totals_cells (ws : Sheet) (subtotal shipping_total install_total
    grand_total : Option ℚ) (footer_row_offset : Int) : Sheet :=
  let ws1 := match subtotal with
    | none => ws
    | some v => write_cell ws (shift_cell_ref SUBTOTAL_CELL footer_row_offset) (.num v)
  let ws2 := match shipping_total with
    | none => ws1
    | some v => write_cell ws1 (shift_cell_ref SHIPPING_CELL footer_row_offset) (.num v)
  let ws3 := match install_total with
    | none => ws2
    | some v => write_cell ws2 (shift_cell_ref INSTALL_CELL footer_row_offset) (.num v)
  match grand_total with
  | none => ws3
  | some v => write_cell ws3 (shift_cell_ref TOTAL_CELL footer_row_offset) (.num v)

/-- The display-line count named by the specification: split the text at
explicit newlines and let each line contribute the ceiling of its length
over 60 characters, but at least one line. -/
def displayLineCount (text : List Char) : Nat :=
  ((text.splitOn '\n').map (fun ln => max 1 ((ln.length + 59) / 60))).sum

/-- A concrete template-like sheet used to instantiate theorems with
hypotheses: six populated columns and 120 populated rows of blank cells. -/
def sampleSheet : Sheet :=
  { cell := fun _ _ => blankCell
    height := fun _ => none
    merges := []
    maxCol := 6
    maxRow := 120 }

lemma dropWhile_idem (p : Char → Bool) (l : List Char) :
    (l.dropWhile p).dropWhile p = l.dropWhile p := by
  induction l with
  | nil => rfl
  | cons c t ih =>
      by_cases h : p c
      · simp [List.dropWhile_cons, h, ih]
      · simp [List.dropWhile_cons, h]

lemma dropWhile_eq_nil_of_forall (p : Char → Bool) (l : List Char)
    (h : ∀ c ∈ l, p c) : l.dropWhile p = [] := by
  simpa using h

lemma pyStripLeft_cons_of_space {c : Char} (t : List Char) (h : pyIsSpace c) :
    pyStripLeft (c :: t) = pyStripLeft t := by
  simp [pyStripLeft, List.dropWhile_cons, h]

lemma pyStripLeft_cons_of_nonspace {c : Char} (t : List Char) (h : pyIsSpace c = false) :
    pyStripLeft (c :: t) = c :: t := by
  simp [pyStripLeft, List.dropWhile_cons, h]

lemma pyStripLeft_idem (l : List Char) : pyStripLeft (pyStripLeft l) = pyStripLeft l :=
  dropWhile_idem _ l

lemma pyStripLeft_append_of_space (a b : List Char) (h : ∀ c ∈ a, pyIsSpace c) :
    pyStripLeft (a ++ b) = pyStripLeft b := by
  simp only [pyStripLeft, List.dropWhile_append, dropWhile_eq_nil_of_forall pyIsSpace a h,
    List.isEmpty_nil, if_true]

lemma pyStripLeft_of_forall_nonspace (l : List Char) (h : ∀ c ∈ l, pyIsSpace c = false) :
    pyStripLeft l = l := by
  cases l with
  | nil => rfl
  | cons c t => exact pyStripLeft_cons_of_nonspace t (h c (by simp))

lemma pyStripRight_nil : pyStripRight [] = [] := rfl

lemma pyStripRight_append (a b : List Char) :
    pyStripRight (a ++ b) = if pyStripRight b = [] then pyStripRight a else a ++ pyStripRight b := by
  simp only [pyStripRight, List.reverse_append, List.dropWhile_append]
  by_cases h : b.reverse.dropWhile pyIsSpace = []
  · simp [h]
  · simp [h, List.isEmpty_iff]

lemma pyStripRight_idem (l : List Char) : pyStripRight (pyStripRight l) = pyStripRight l := by
  simp [pyStripRight, dropWhile_idem]

lemma pyStripRight_append_of_space (a b : List Char) (h : ∀ c ∈ b, pyIsSpace c) :
    pyStripRight (a ++ b) = pyStripRight a := by
  have hb : pyStripRight b = [] := by
    simp [pyStripRight, dropWhile_eq_nil_of_forall pyIsSpace b.reverse (by simpa using h)]
  rw [pyStripRight_append, if_pos hb]

lemma pyStripRight_of_forall_nonspace (l : List Char) (h : ∀ c ∈ l, pyIsSpace c = false) :
    pyStripRight l = l := by
  have hl := pyStripLeft_of_forall_nonspace l.reverse (by simpa using h)
  simp only [pyStripLeft] at hl
  simp only [pyStripRight, hl, List.reverse_reverse]

lemma pyStripRight_cons (c : Char) (t : List Char) :
    pyStripRight (c :: t) =
      if pyStripRight t = [] then (if pyIsSpace c then [] else [c]) else c :: pyStripRight t := by
  have : c :: t = [c] ++ t := rfl
  rw [this, pyStripRight_append]
  by_cases h : pyStripRight t = []
  · simp only [h, if_true]
    by_cases hc : pyIsSpace c
    · simp [pyStripRight, List.dropWhile, hc]
    · simp [pyStripRight, List.dropWhile, hc]
  · simp [h]

lemma pyStripRight_append_nonspace_cons (l b : List Char) {c : Char} (h : pyIsSpace c = false) :
    pyStripRight (l ++ c :: b) = l ++ c :: pyStripRight b := by
  rw [pyStripRight_append, pyStripRight_cons]
  by_cases hb : pyStripRight b = []
  · simp [hb, h]
  · simp [hb]

lemma pyStripRight_stripLeft_comm (l : List Char) :
    pyStripRight (pyStripLeft l) = pyStripLeft (pyStripRight l) := by
  induction l with
  | nil => rfl
  | cons c t ih =>
      by_cases hc : pyIsSpace c
      · rw [pyStripLeft_cons_of_space t hc, ih, pyStripRight_cons]
        by_cases ht : pyStripRight t = []
        · simp [ht, hc]
        · rw [if_neg ht, pyStripLeft_cons_of_space _ hc]
      · rw [pyStripLeft_cons_of_nonspace t (by simpa using hc), pyStripRight_cons]
        by_cases ht : pyStripRight t = []
        · rw [if_pos ht, if_neg hc]
          exact (pyStripLeft_of_forall_nonspace [c] (by
            intro x hx
            simp at hx
            simpa [hx] using hc)).symm
        · rw [if_neg ht]
          exact (pyStripLeft_cons_of_nonspace _ (by simpa using hc)).symm

lemma pyStrip_stripLeft (l : List Char) : pyStrip (pyStripLeft l) = pyStrip l := by
  simp [pyStrip, pyStripLeft_idem]

lemma pyStrip_stripRight (l : List Char) : pyStrip (pyStripRight l) = pyStrip l := by
  simp only [pyStrip]
  rw [← pyStripRight_stripLeft_comm l, pyStripRight_idem]

lemma pyStrip_of_forall_nonspace (l : List Char) (h : ∀ c ∈ l, pyIsSpace c = false) :
    pyStrip l = l := by
  rw [pyStrip, pyStripLeft_of_forall_nonspace l h, pyStripRight_of_forall_nonspace l h]

lemma pyStrip_append_of_space_left (a b : List Char) (h : ∀ c ∈ a, pyIsSpace c) :
    pyStrip (a ++ b) = pyStrip b := by
  rw [pyStrip, pyStripLeft_append_of_space a b h, pyStrip]

lemma splitAtFirstDash_of_no_dash (l : List Char) (h : '-' ∉ l) :
    splitAtFirstDash l = none := by
  induction l with
  | nil => rfl
  | cons c t ih =>
      have hc : ¬ c = '-' := fun hcc => h (by simp [hcc])
      simp only [splitAtFirstDash, if_neg hc, ih (fun ht => h (by simp [ht]))]

lemma splitAtFirstDash_append (a b : List Char) (h : '-' ∉ a) :
    splitAtFirstDash (a ++ '-' :: b) = some (a, b) := by
  induction a with
  | nil => simp [splitAtFirstDash]
  | cons c t ih =>
      have hc : ¬ c = '-' := fun hcc => h (by simp [hcc])
      have ht := ih (fun hm => h (by simp [hm]))
      simp only [List.cons_append, splitAtFirstDash, if_neg hc]
      rw [show t.append ('-' :: b) = t ++ '-' :: b from rfl, ht]

lemma codeCharOK_not_space {c : Char} (h : codeCharOK c = true) : pyIsSpace c = false := by
  by_contra hs
  have hs' : pyIsSpace c = true := by
    cases hx : pyIsSpace c
    · exact absurd hx hs
    · rfl
  have hmem : ((((c = ' ' ∨ c = '\t') ∨ c = '\n') ∨ c = '\r') ∨ c = '\x0b') ∨ c = '\x0c' := by
    simpa [pyIsSpace] using hs'
  rcases hmem with ((((rfl | rfl) | rfl) | rfl) | rfl) | rfl <;> exact absurd h (by decide)

lemma codeCharOK_ne_dash {c : Char} (h : codeCharOK c = true) : ¬ c = '-' := by
  intro hc
  subst hc
  exact absurd h (by decide)

lemma split_of_code_dash_rest (code sp1 sp2 rest : List Char) (hne : code ≠ [])
    (hcode : code.all codeCharOK = true)
    (h1 : ∀ c ∈ sp1, pyIsSpace c) (h2 : ∀ c ∈ sp2, pyIsSpace c) :
    split_sign_type_and_summary (some (code ++ sp1 ++ '-' :: (sp2 ++ rest)))
      = (code, pyStrip rest) := by
  have hcode' : ∀ c ∈ code, codeCharOK c = true := by simpa [List.all_eq_true] using hcode
  have hcodens : ∀ c ∈ code, pyIsSpace c = false := fun c hc => codeCharOK_not_space (hcode' c hc)
  have hraw : code ++ sp1 ++ '-' :: (sp2 ++ rest) ≠ [] := by
    cases code with
    | nil => exact absurd rfl hne
    | cons x t => simp
  -- the stripped input keeps the code and sp1 prefix and the dash
  have hsl : pyStripLeft (code ++ sp1 ++ '-' :: (sp2 ++ rest))
      = code ++ sp1 ++ '-' :: (sp2 ++ rest) := by
    cases code with
    | nil => exact absurd rfl hne
    | cons x t =>
        exact pyStripLeft_cons_of_nonspace _ (hcodens x (by simp))
  have hsr : pyStripRight (code ++ sp1 ++ '-' :: (sp2 ++ rest))
      = code ++ sp1 ++ '-' :: pyStripRight (sp2 ++ rest) :=
    pyStripRight_append_nonspace_cons (code ++ sp1) (sp2 ++ rest) (by decide)
  have hstrip : pyStrip (code ++ sp1 ++ '-' :: (sp2 ++ rest))
      = code ++ sp1 ++ '-' :: pyStripRight (sp2 ++ rest) := by
    rw [pyStrip, hsl, hsr]
  have hnodash : '-' ∉ code ++ sp1 := by
    intro hmem
    rcases List.mem_append.mp hmem with hm | hm
    · exact codeCharOK_ne_dash (hcode' _ hm) rfl
    · have := h1 _ hm
      exact absurd this (by decide)
  have hsplit : splitAtFirstDash (code ++ sp1 ++ '-' :: pyStripRight (sp2 ++ rest))
      = some (code ++ sp1, pyStripRight (sp2 ++ rest)) :=
    splitAtFirstDash_append (code ++ sp1) (pyStripRight (sp2 ++ rest)) hnodash
  have hleft : pyStripRight (code ++ sp1) = code := by
    rw [pyStripRight_append_of_space code sp1 h1, pyStripRight_of_forall_nonspace code hcodens]
  have hsummary : pyStrip (pyStripLeft (pyStripRight (sp2 ++ rest))) = pyStrip rest := by
    rw [pyStrip_stripLeft, pyStrip_stripRight, pyStrip_append_of_space_left sp2 rest h2]
  have hcodestrip : pyStrip code = code := pyStrip_of_forall_nonspace code hcodens
  simp only [split_sign_type_and_summary, if_neg hraw, hstrip, reSplitDashOnce, hsplit,
    hleft, hcodestrip, hsummary]
  rw [if_pos ⟨hne, hcode⟩]

lemma split_of_no_dash (s : List Char) (h : '-' ∉ pyStrip s) :
    split_sign_type_and_summary (some s) = (pyStrip s, []) := by
  by_cases hs : s = []
  · subst hs
    simp [split_sign_type_and_summary, pyStrip, pyStripLeft, pyStripRight]
  · simp only [split_sign_type_and_summary, if_neg hs, reSplitDashOnce,
      splitAtFirstDash_of_no_dash (pyStrip s) h]

lemma style_inserted_rows_succ (ws : Sheet) (src fs mc k : Nat) :
    style_inserted_rows ws src fs mc (k + 1)
      = copy_row_style (style_inserted_rows ws src fs mc k) src (fs + k) mc := by
  simp [style_inserted_rows, List.range_succ]


lemma style_inserted_rows_cell (ws : Sheet) (src fs mc m : Nat) (h : src < fs) (r c : Nat) :
    (style_inserted_rows ws src fs mc m).cell r c =
      if fs ≤ r ∧ r < fs + m ∧ 1 ≤ c ∧ c ≤ mc then
        ⟨(ws.cell r c).value, (ws.cell src c).style⟩
      else ws.cell r c := by
  induction m generalizing r c with
  | zero =>
      rw [if_neg (show ¬ (fs ≤ r ∧ r < fs + 0 ∧ 1 ≤ c ∧ c ≤ mc) by omega)]
      rfl
  | succ k ih =>
      rw [style_inserted_rows_succ]
      simp only [copy_row_style]
      by_cases h1 : r = fs + k ∧ 1 ≤ c ∧ c ≤ mc
      · rw [if_pos h1, ih r c, ih src c,
          if_neg (show ¬ (fs ≤ r ∧ r < fs + k ∧ 1 ≤ c ∧ c ≤ mc) by omega),
          if_neg (show ¬ (fs ≤ src ∧ src < fs + k ∧ 1 ≤ c ∧ c ≤ mc) by omega),
          if_pos (show fs ≤ r ∧ r < fs + (k + 1) ∧ 1 ≤ c ∧ c ≤ mc by omega)]
      · rw [if_neg h1, ih r c]
        by_cases h2 : fs ≤ r ∧ r < fs + k ∧ 1 ≤ c ∧ c ≤ mc
        · rw [if_pos h2, if_pos (show fs ≤ r ∧ r < fs + (k + 1) ∧ 1 ≤ c ∧ c ≤ mc by omega)]
        · rw [if_neg h2,
            if_neg (show ¬ (fs ≤ r ∧ r < fs + (k + 1) ∧ 1 ≤ c ∧ c ≤ mc) by omega)]

lemma style_inserted_rows_height (ws : Sheet) (src fs mc m : Nat) (h : src < fs) (r : Nat) :
    (style_inserted_rows ws src fs mc m).height r =
      if fs ≤ r ∧ r < fs + m then ws.height src else ws.height r := by
  induction m generalizing r with
  | zero =>
      rw [if_neg (show ¬ (fs ≤ r ∧ r < fs + 0) by omega)]
      rfl
  | succ k ih =>
      rw [style_inserted_rows_succ]
      simp only [copy_row_style]
      by_cases h1 : r = fs + k
      · rw [if_pos h1, ih src,
          if_neg (show ¬ (fs ≤ src ∧ src < fs + k) by omega),
          if_pos (show fs ≤ r ∧ r < fs + (k + 1) by omega)]
      · rw [if_neg h1, ih r]
        by_cases h2 : fs ≤ r ∧ r < fs + k
        · rw [if_pos h2, if_pos (show fs ≤ r ∧ r < fs + (k + 1) by omega)]
        · rw [if_neg h2, if_neg (show ¬ (fs ≤ r ∧ r < fs + (k + 1)) by omega)]

lemma style_inserted_rows_merges (ws : Sheet) (src fs mc m : Nat) :
    (style_inserted_rows ws src fs mc m).merges = ws.merges := by
  induction m with
  | zero => rfl
  | succ k ih => rw [style_inserted_rows_succ]; exact ih

lemma adjust_snd (ws : Sheet) (n bs be ex : Nat) :
    (adjust_body_rows_preserve_footer ws n bs be ex).2
      = ((n : Int) + (ex : Int)) - ((be : Int) - (bs : Int) + 1) := by
  simp only [adjust_body_rows_preserve_footer]
  split_ifs with h h2
  · simpa using h.symm
  · rfl
  · rfl

lemma adjust_noop (ws : Sheet) (n bs be ex : Nat)
    (h : (n : Int) + (ex : Int) = (be : Int) - (bs : Int) + 1) :
    adjust_body_rows_preserve_footer ws n bs be ex = (ws, 0) := by
  simp only [adjust_body_rows_preserve_footer]
  rw [if_pos (show ((n : Int) + (ex : Int)) - ((be : Int) - (bs : Int) + 1) = 0 by omega)]

lemma adjust_fst_cell_insert (ws : Sheet) (n bs be ex : Nat)
    (hd : 0 < ((n : Int) + (ex : Int)) - ((be : Int) - (bs : Int) + 1)) (r c : Nat) :
    (adjust_body_rows_preserve_footer ws n bs be ex).1.cell r c =
      if r ≤ be then ws.cell r c
      else if r < be + 1 + (((n : Int) + (ex : Int)) - ((be : Int) - (bs : Int) + 1)).toNat then
        (if 1 ≤ c ∧ c ≤ ws.maxCol then ⟨none, (ws.cell be c).style⟩ else blankCell)
      else ws.cell (r - (((n : Int) + (ex : Int)) - ((be : Int) - (bs : Int) + 1)).toNat) c := by
  have ha : 0 < (((n : Int) + (ex : Int)) - ((be : Int) - (bs : Int) + 1)).toNat := by omega
  simp only [adjust_body_rows_preserve_footer]
  rw [if_neg (show ¬ ((n : Int) + (ex : Int)) - ((be : Int) - (bs : Int) + 1) = 0 by omega),
    if_pos hd]
  simp only [restore_merges, save_merged_ranges, unmerge_all]
  rw [style_inserted_rows_cell _ _ _ _ _ (show be < be + 1 by omega) r c]
  simp only [insert_rows, blankCell]
  by_cases h1 : r ≤ be
  · rw [if_neg (show ¬ (be + 1 ≤ r ∧
        r < be + 1 + (((n : Int) + (ex : Int)) - ((be : Int) - (bs : Int) + 1)).toNat ∧
        1 ≤ c ∧ c ≤ ws.maxCol) by omega),
      if_pos (show r < be + 1 by omega), if_pos h1]
  · by_cases h2 : r < be + 1 + (((n : Int) + (ex : Int)) - ((be : Int) - (bs : Int) + 1)).toNat
    · by_cases h3 : 1 ≤ c ∧ c ≤ ws.maxCol
      · rw [if_pos (show be + 1 ≤ r ∧
            r < be + 1 + (((n : Int) + (ex : Int)) - ((be : Int) - (bs : Int) + 1)).toNat ∧
            1 ≤ c ∧ c ≤ ws.maxCol by omega),
          if_neg (show ¬ r < be + 1 by omega), if_pos h2,
          if_pos (show be < be + 1 by omega),
          if_neg h1, if_pos h2, if_pos h3]
      · rw [if_neg (show ¬ (be + 1 ≤ r ∧
            r < be + 1 + (((n : Int) + (ex : Int)) - ((be : Int) - (bs : Int) + 1)).toNat ∧
            1 ≤ c ∧ c ≤ ws.maxCol) by omega),
          if_neg (show ¬ r < be + 1 by omega), if_pos h2,
          if_neg h1, if_pos h2, if_neg h3]
    · rw [if_neg (show ¬ (be + 1 ≤ r ∧
          r < be + 1 + (((n : Int) + (ex : Int)) - ((be : Int) - (bs : Int) + 1)).toNat ∧
          1 ≤ c ∧ c ≤ ws.maxCol) by omega),
        if_neg (show ¬ r < be + 1 by omega), if_neg h2,
        if_neg h1, if_neg h2]

lemma adjust_fst_cell_delete (ws : Sheet) (n bs be ex : Nat)
    (hd : ((n : Int) + (ex : Int)) - ((be : Int) - (bs : Int) + 1) < 0) (r c : Nat) :
    (adjust_body_rows_preserve_footer ws n bs be ex).1.cell r c =
      if r < bs + n + ex then ws.cell r c
      else ws.cell (r + (((be : Int) - (bs : Int) + 1) - ((n : Int) + (ex : Int))).toNat) c := by
  simp only [adjust_body_rows_preserve_footer]
  rw [if_neg (show ¬ ((n : Int) + (ex : Int)) - ((be : Int) - (bs : Int) + 1) = 0 by omega),
    if_neg (show ¬ 0 < ((n : Int) + (ex : Int)) - ((be : Int) - (bs : Int) + 1) by omega)]
  simp only [restore_merges, save_merged_ranges, unmerge_all, delete_rows]
  rw [show (-(((n : Int) + (ex : Int)) - ((be : Int) - (bs : Int) + 1))).toNat
      = (((be : Int) - (bs : Int) + 1) - ((n : Int) + (ex : Int))).toNat by omega]

lemma adjust_fst_height_insert (ws : Sheet) (n bs be ex : Nat)
    (hd : 0 < ((n : Int) + (ex : Int)) - ((be : Int) - (bs : Int) + 1)) (r : Nat) :
    (adjust_body_rows_preserve_footer ws n bs be ex).1.height r =
      if be + 1 ≤ r ∧ r < be + 1 + (((n : Int) + (ex : Int)) - ((be : Int) - (bs : Int) + 1)).toNat
      then ws.height be else ws.height r := by
  simp only [adjust_body_rows_preserve_footer]
  rw [if_neg (show ¬ ((n : Int) + (ex : Int)) - ((be : Int) - (bs : Int) + 1) = 0 by omega),
    if_pos hd]
  simp only [restore_merges, save_merged_ranges, unmerge_all]
  rw [style_inserted_rows_height _ _ _ _ _ (show be < be + 1 by omega) r]
  simp only [insert_rows]

lemma adjust_fst_height_delete (ws : Sheet) (n bs be ex : Nat)
    (hd : ((n : Int) + (ex : Int)) - ((be : Int) - (bs : Int) + 1) < 0) (r : Nat) :
    (adjust_body_rows_preserve_footer ws n bs be ex).1.height r = ws.height r := by
  simp only [adjust_body_rows_preserve_footer]
  rw [if_neg (show ¬ ((n : Int) + (ex : Int)) - ((be : Int) - (bs : Int) + 1) = 0 by omega),
    if_neg (show ¬ 0 < ((n : Int) + (ex : Int)) - ((be : Int) - (bs : Int) + 1) by omega)]
  simp only [restore_merges, save_merged_ranges, unmerge_all, delete_rows]

lemma adjust_fst_merges (ws : Sheet) (n bs be ex : Nat)
    (hd : ((n : Int) + (ex : Int)) - ((be : Int) - (bs : Int) + 1) ≠ 0) :
    (adjust_body_rows_preserve_footer ws n bs be ex).1.merges =
      ws.merges.map (fun rng =>
        shift_range_overlap_safe rng ((be : Int) + 1)
          (((n : Int) + (ex : Int)) - ((be : Int) - (bs : Int) + 1))) := by
  simp only [adjust_body_rows_preserve_footer]
  rw [if_neg hd]
  by_cases hp : 0 < ((n : Int) + (ex : Int)) - ((be : Int) - (bs : Int) + 1)
  · rw [if_pos hp]
    simp only [restore_merges, save_merged_ranges, unmerge_all]
    norm_cast
  · rw [if_neg hp]
    simp only [restore_merges, save_merged_ranges, unmerge_all]
    norm_cast

lemma autofit_row_lines_height_update (ws : Sheet) (h : Nat → Option ℚ) (r : Nat)
    (cols : List (List Char)) :
    autofit_row_lines { ws with height := h } r cols = autofit_row_lines ws r cols := rfl

lemma autofit_foldl_height (l : List Nat) (ws : Sheet) (cols : List (List Char)) (mh : ℚ)
    (r : Nat) :
    ((l.foldl
        (fun acc x =>
          { acc with
            height := fun y =>
              if y = x then some (max mh ((autofit_row_lines acc x cols : ℚ) * 15))
              else acc.height y })
        ws).height r) =
      if r ∈ l then some (max mh ((autofit_row_lines ws r cols : ℚ) * 15)) else ws.height r := by
  induction l generalizing ws with
  | nil => simp
  | cons x t ih =>
      simp only [List.foldl_cons]
      rw [ih]
      by_cases hm : r ∈ t
      · rw [if_pos hm, if_pos (by simp [hm]), autofit_row_lines_height_update]
      · rw [if_neg hm]
        by_cases hx : r = x
        · subst hx
          simp
        · have : r ∉ x :: t := by simp [hx, hm]
          rw [if_neg this]
          simp [hx]

lemma approximate_autofit_rows_height (ws : Sheet) (rs re : Nat) (cols : List (List Char))
    (mh : ℚ) (r : Nat) :
    (approximate_autofit_rows ws rs re cols mh).height r =
      if rs ≤ r ∧ r ≤ re then some (max mh ((autofit_row_lines ws r cols : ℚ) * 15))
      else ws.height r := by
  rw [approximate_autofit_rows, autofit_foldl_height]
  by_cases h : rs ≤ r ∧ r ≤ re
  · rw [if_pos (by
      rw [List.mem_range'_1]
      omega), if_pos h]
  · rw [if_neg (by
      rw [List.mem_range'_1]
      omega), if_neg h]

lemma restore_row_heights_untouched (hs : List (Nat × Option ℚ)) (ws : Sheet) (off : Int)
    (r : Nat) (h : ∀ p ∈ hs, (r : Int) ≠ (p.1 : Int) + off) :
    (restore_row_heights ws hs off).height r = ws.height r := by
  induction hs generalizing ws with
  | nil => rfl
  | cons p t ih =>
      simp only [restore_row_heights, List.foldl_cons] at ih ⊢
      rw [ih _ (fun q hq => h q (by simp [hq]))]
      simp [h p (by simp)]

lemma capture_row_heights_mem (ws : Sheet) (a b : Nat) (p : Nat × Option ℚ)
    (h : p ∈ capture_row_heights ws a b) : a ≤ p.1 ∧ p.1 ≤ b := by
  simp only [capture_row_heights, List.mem_map] at h
  obtain ⟨r, hr, rfl⟩ := h
  rw [List.mem_range'_1] at hr
  omega

lemma wrappedLineCountPy_eq (ln : List Char) :
    wrappedLineCountPy ln = max 1 ((ln.length + 59) / 60) := by
  have h : ln.length / 60 + (if ln.length % 60 ≠ 0 then 1 else 0) = (ln.length + 59) / 60 := by
    by_cases hm : ln.length % 60 = 0
    · rw [if_neg (by omega)]
      omega
    · rw [if_pos hm]
      omega
  rw [wrappedLineCountPy, h]

lemma foldl_add_eq_sum_map (l : List (List Char)) (f : List Char → Nat) (a : Nat) :
    l.foldl (fun acc ln => acc + f ln) a = a + (l.map f).sum := by
  induction l generalizing a with
  | nil => simp
  | cons x t ih => simp [ih, Nat.add_assoc]

lemma pyLineCount_eq_display (text : List Char) : pyLineCount text = displayLineCount text := by
  have hf : ∀ ln : List Char, (if ln = [] then 1 else wrappedLineCountPy ln)
      = max 1 ((ln.length + 59) / 60) := by
    intro ln
    by_cases h : ln = []
    · subst h
      rfl
    · rw [if_neg h, wrappedLineCountPy_eq]
  rw [pyLineCount, displayLineCount, foldl_add_eq_sum_map _ _ 0, Nat.zero_add]
  simp only [hf]

lemma sum_extended_foldl (items : List LineItem) (a : ℚ) (f : Bool) :
    items.foldl
        (fun (acc : ℚ × Bool) it =>
          match safe_num it.extended_total with
          | some v => (acc.1 + v, true)
          | none => acc)
        (a, f) =
      (a + (items.filterMap (fun it => safe_num it.extended_total)).sum,
        f || !(items.filterMap (fun it => safe_num it.extended_total)).isEmpty) := by
  induction items generalizing a f with
  | nil => simp
  | cons it t ih =>
      cases h : safe_num it.extended_total with
      | none => simp [List.foldl_cons, List.filterMap_cons, h, ih]
      | some v =>
          simp only [List.foldl_cons, List.filterMap_cons, h, ih, List.sum_cons,
            List.isEmpty_cons, Bool.true_or, Bool.not_false, Bool.or_true, Prod.mk.injEq]
          exact ⟨by ring, trivial⟩

lemma sum_extended_eq (items : List LineItem) :
    sum_extended (some items) =
      if (items.filterMap (fun it => safe_num it.extended_total)) = [] then none
      else some ((items.filterMap (fun it => safe_num it.extended_total)).sum) := by
  by_cases hnil : items = []
  · subst hnil
    simp [sum_extended]
  · simp only [sum_extended, if_neg hnil]
    rw [sum_extended_foldl]
    by_cases hfm : (items.filterMap (fun it => safe_num it.extended_total)) = []
    · simp [hfm]
    · simp [hfm, List.isEmpty_iff]

lemma autofit_row_lines_single (ws : Sheet) (r : Nat) (col : List Char) (s : List Char)
    (h : (ws.cell r (letterToCol col)).value = some (.str s)) :
    autofit_row_lines ws r [col] = max 1 (pyLineCount s) := by
  simp only [autofit_row_lines, List.foldl_cons, List.foldl_nil, h]
  by_cases hs : s = []
  · subst hs
    rfl
  · simp [pyFalsy, hs, pyStr]

lemma autofit_row_lines_single_none (ws : Sheet) (r : Nat) (col : List Char)
    (h : (ws.cell r (letterToCol col)).value = none) :
    autofit_row_lines ws r [col] = 1 := by
  simp only [autofit_row_lines, List.foldl_cons, List.foldl_nil, h]

lemma qmax_line_helper (L : Nat) :
    max (15 : ℚ) (((max 1 L : ℕ) : ℚ) * 15) = max 15 (15 * (L : ℚ)) := by
  by_cases h : L = 0
  · subst h
    norm_num
  · have h1 : max 1 L = L := by omega
    rw [h1, mul_comm]

lemma write_cell_cell (ws : Sheet) (ref : CellRef) (v : JVal) (r c : Nat) :
    (write_cell ws ref v).cell r c =
      if r = ref.row.toNat ∧ c = letterToCol ref.col then ⟨some v, (ws.cell r c).style⟩
      else ws.cell r c := rfl

/-- C1: for every non-negative sign count, the Body Resizer leaves the body
region (rows bodyStart to bodyStart + signCount + extraBlankRows - 1) with
exactly signCount + extraBlankRows rows and returns displacement
(signCount + extraBlankRows) - (bodyEnd - bodyStart + 1): every original
footer row (at or below bodyEnd + 1) reappears displaced by exactly that
amount, so the footer starts at bodyStart + signCount + extraBlankRows;
with positive displacement that many rows are inserted at
footerStart = bodyEnd + 1, each blank and styled (cell styles and row
height) from row bodyEnd while all rows above footerStart are untouched;
with negative displacement that many rows are deleted starting at
bodyStart + signCount + extraBlankRows. -/
theorem C1_body_resizer_geometry (ws : Sheet) (n bs be ex : Nat)
    (h1 : 1 ≤ bs) (h2 : bs ≤ be) :
    (adjust_body_rows_preserve_footer ws n bs be ex).2
        = ((n : Int) + (ex : Int)) - ((be : Int) - (bs : Int) + 1)
    ∧ (∀ r c : Nat, be + 1 ≤ r →
        (adjust_body_rows_preserve_footer ws n bs be ex).1.cell
            (((r : Int) + (adjust_body_rows_preserve_footer ws n bs be ex).2).toNat) c
          = ws.cell r c)
    ∧ (0 < (adjust_body_rows_preserve_footer ws n bs be ex).2 →
        (∀ r c : Nat, r < be + 1 →
          (adjust_body_rows_preserve_footer ws n bs be ex).1.cell r c = ws.cell r c)
        ∧ (∀ k c : Nat, k < (adjust_body_rows_preserve_footer ws n bs be ex).2.toNat →
            1 ≤ c → c ≤ ws.maxCol →
            (adjust_body_rows_preserve_footer ws n bs be ex).1.cell (be + 1 + k) c
              = ⟨none, (ws.cell be c).style⟩
            ∧ (adjust_body_rows_preserve_footer ws n bs be ex).1.height (be + 1 + k)
              = ws.height be))
    ∧ ((adjust_body_rows_preserve_footer ws n bs be ex).2 < 0 →
        (∀ r c : Nat, r < bs + (n + ex) →
          (adjust_body_rows_preserve_footer ws n bs be ex).1.cell r c = ws.cell r c)
        ∧ (∀ r c : Nat, bs + (n + ex) ≤ r →
          (adjust_body_rows_preserve_footer ws n bs be ex).1.cell r c
            = ws.cell (r + (-(adjust_body_rows_preserve_footer ws n bs be ex).2).toNat) c)) := by
  refine ⟨adjust_snd ws n bs be ex, ?_, ?_, ?_⟩
  · intro r c hr
    rw [adjust_snd]
    rcases lt_trichotomy (((n : Int) + (ex : Int)) - ((be : Int) - (bs : Int) + 1)) 0
      with hd | hd | hd
    · rw [adjust_fst_cell_delete ws n bs be ex hd,
        if_neg (show ¬ (((r : Int) + (((n : Int) + (ex : Int)) - ((be : Int) - (bs : Int) + 1))).toNat
          < bs + n + ex) by omega)]
      congr 1
      omega
    · have hd0 : (n : Int) + (ex : Int) = (be : Int) - (bs : Int) + 1 := by omega
      rw [adjust_noop ws n bs be ex hd0]
      show ws.cell _ c = ws.cell r c
      congr 1
      omega
    · rw [adjust_fst_cell_insert ws n bs be ex hd,
        if_neg (show ¬ (((r : Int) + (((n : Int) + (ex : Int)) - ((be : Int) - (bs : Int) + 1))).toNat
          ≤ be) by omega),
        if_neg (show ¬ (((r : Int) + (((n : Int) + (ex : Int)) - ((be : Int) - (bs : Int) + 1))).toNat
          < be + 1 + (((n : Int) + (ex : Int)) - ((be : Int) - (bs : Int) + 1)).toNat) by omega)]
      congr 1
      omega
  · intro hd
    rw [adjust_snd] at hd
    constructor
    · intro r c hr
      rw [adjust_fst_cell_insert ws n bs be ex hd, if_pos (show r ≤ be by omega)]
    · intro k c hk hc1 hc2
      rw [adjust_snd] at hk
      constructor
      · rw [adjust_fst_cell_insert ws n bs be ex hd,
          if_neg (show ¬ be + 1 + k ≤ be by omega),
          if_pos (show be + 1 + k
            < be + 1 + (((n : Int) + (ex : Int)) - ((be : Int) - (bs : Int) + 1)).toNat by omega),
          if_pos ⟨hc1, hc2⟩]
      · rw [adjust_fst_height_insert ws n bs be ex hd,
          if_pos (show be + 1 ≤ be + 1 + k ∧ be + 1 + k
            < be + 1 + (((n : Int) + (ex : Int)) - ((be : Int) - (bs : Int) + 1)).toNat by omega)]
  · intro hd
    rw [adjust_snd] at hd
    constructor
    · intro r c hr
      rw [adjust_fst_cell_delete ws n bs be ex hd, if_pos (show r < bs + n + ex by omega)]
    · intro r c hr
      rw [adjust_snd, adjust_fst_cell_delete ws n bs be ex hd,
        if_neg (show ¬ r < bs + n + ex by omega)]
      congr 2
      omega

/-- Witness for C1 at the template geometry: body rows 28-47, three extra
blank rows and 25 sign entries on a concrete sheet. -/
theorem C1_body_resizer_geometry_witness :
    ((1 : Nat) ≤ 28 ∧ (28 : Nat) ≤ 47) ∧
    (adjust_body_rows_preserve_footer sampleSheet 25 28 47 3).2
      = (((25 : Nat) : Int) + ((3 : Nat) : Int)) - (((47 : Nat) : Int) - ((28 : Nat) : Int) + 1) :=
  ⟨⟨by decide, by decide⟩,
    (C1_body_resizer_geometry sampleSheet 25 28 47 3 (by decide) (by decide)).1⟩

/-- C9: when signCount + extraBlankRows equals the template's base row
count, the Body Resizer returns displacement 0 and the sheet value is
returned unchanged: identical cells, heights, merges and extents, because
the function returns before unmerging, inserting, deleting or styling
anything. -/
theorem C9_noop_idempotence (ws : Sheet) (n bs be ex : Nat)
    (h : (n : Int) + (ex : Int) = (be : Int) - (bs : Int) + 1) :
    adjust_body_rows_preserve_footer ws n bs be ex = (ws, 0) :=
  adjust_noop ws n bs be ex h

/-- Witness for C9: 17 signs plus 3 blank rows exactly fill the 20-row
body 28-47 of a concrete sheet. -/
theorem C9_noop_idempotence_witness :
    (((17 : Nat) : Int) + ((3 : Nat) : Int) = ((47 : Nat) : Int) - ((28 : Nat) : Int) + 1) ∧
    adjust_body_rows_preserve_footer sampleSheet 17 28 47 3 = (sampleSheet, 0) :=
  ⟨by decide, C9_noop_idempotence sampleSheet 17 28 47 3 (by decide)⟩

/-- C2: for every recorded merged range, restore after a resize with
displacement d maps it through shift_range_overlap_safe, which shifts the
whole range by d when its top row is at or below footerStart (entirely
below the boundary), leaves it unchanged when its bottom row is above
footerStart (entirely above), and shifts the whole range by d as one
unshifted-span unit, never splitting it, when it straddles footerStart
(top above, bottom at or below). -/
theorem C2_merge_restore_shift (rng : MergeRange) (fs d : Int) (ws : Sheet)
    (ms : List MergeRange) :
    (fs ≤ min rng.a.row rng.b.row →
      shift_range_overlap_safe rng fs d
        = ⟨⟨rng.a.col, rng.a.row + d⟩, ⟨rng.b.col, rng.b.row + d⟩⟩)
    ∧ (max rng.a.row rng.b.row < fs → shift_range_overlap_safe rng fs d = rng)
    ∧ (min rng.a.row rng.b.row < fs → fs ≤ max rng.a.row rng.b.row →
      shift_range_overlap_safe rng fs d
        = ⟨⟨rng.a.col, rng.a.row + d⟩, ⟨rng.b.col, rng.b.row + d⟩⟩)
    ∧ (restore_merges ws ms fs d).merges
        = ms.map (fun rng => shift_range_overlap_safe rng fs d) := by
  refine ⟨?_, ?_, ?_, rfl⟩
  · intro h
    rw [shift_range_overlap_safe, if_pos (Or.inl h)]
  · intro h
    rw [shift_range_overlap_safe, if_neg]
    rintro (hc | ⟨hc1, hc2⟩) <;> omega
  · intro ha hb
    rw [shift_range_overlap_safe, if_pos (Or.inr ⟨ha, hb⟩)]

/-- Witness for C2: a two-row range F50:F52 entirely below footer row 48,
shifted down by 8. -/
theorem C2_merge_restore_shift_witness :
    ((48 : Int) ≤ min (50 : Int) 52) ∧
    shift_range_overlap_safe ⟨⟨['F'], 50⟩, ⟨['F'], 52⟩⟩ 48 8
      = ⟨⟨['F'], 50 + 8⟩, ⟨['F'], 52 + 8⟩⟩ :=
  ⟨by decide,
    (C2_merge_restore_shift ⟨⟨['F'], 50⟩, ⟨['F'], 52⟩⟩ 48 8 sampleSheet []).1 (by decide)⟩

/-- The SignType entry of the C3 scenario: sign_type D - Donor Room,
description Donor Room, one component Panel 2x4 with quantity 2. -/
def c3sign : SignTypeEntry :=
  ⟨.str "D - Donor Room".toList, .str "Donor Room".toList,
    [⟨.str "Panel".toList, .str "2x4".toList, .num 2⟩]⟩

/-- Counterexample to C3: on the entry of the claim the Description
Composer returns exactly Donor Room with no component bullet line, so the
claimed result with the bullet is not produced. -/
theorem C3_composer_counterexample :
    build_description_one_cell c3sign = "Donor Room".toList
    ∧ build_description_one_cell c3sign ≠ "Donor Room\n• Panel | 2x4 | Qty 2".toList := by
  constructor <;> decide

/-- C3 amended: for the given entry the Description Composer returns
exactly Donor Room.  The composer emits only the summary split out of
sign_type; components never influence the output, and the entry's own
description is used only as a fallback when the summary is empty. -/
theorem C3_composer_amended :
    build_description_one_cell c3sign = "Donor Room".toList
    ∧ (∀ (st d : JVal) (comps comps' : List Component),
        build_description_one_cell ⟨st, d, comps⟩ = build_description_one_cell ⟨st, d, comps'⟩)
    ∧ (∀ (st d : JVal) (comps : List Component),
        (split_sign_type_and_summary (some (safe_str st))).2 = [] →
        build_description_one_cell ⟨st, d, comps⟩ = pyStrip (safe_str d)) := by
  refine ⟨by decide, fun st d comps comps' => rfl, fun st d comps h => ?_⟩
  simp only [build_description_one_cell, h]
  simp

/-- Witness for C3: an entry whose sign_type has no dash falls back to its
stripped description, whatever its components. -/
theorem C3_composer_amended_witness :
    ((split_sign_type_and_summary (some (safe_str (.str "no dash".toList)))).2 = []) ∧
    build_description_one_cell ⟨.str "no dash".toList, .str "  X  ".toList, []⟩
      = pyStrip (safe_str (.str "  X  ".toList)) :=
  ⟨by decide,
    C3_composer_amended.2.2 (.str "no dash".toList) (.str "  X  ".toList) [] (by decide)⟩

lemma split_of_guard_fail (s : List Char) (hs : s ≠ []) (p : List Char × List Char)
    (hp : reSplitDashOnce (pyStrip s) = some p)
    (hguard : ¬ (pyStrip p.1 ≠ [] ∧ (pyStrip p.1).all codeCharOK = true)) :
    split_sign_type_and_summary (some s) = (pyStrip s, []) := by
  simp only [split_sign_type_and_summary, if_neg hs, hp]
  rw [if_neg hguard]

/-- Counterexample to C4: for an input with surrounding whitespace and no
delimiter, the splitter returns the stripped string, not the whole input
string as claimed. -/
theorem C4_splitter_counterexample :
    split_sign_type_and_summary (some "  no dash  ".toList) = ("no dash".toList, [])
    ∧ split_sign_type_and_summary (some "  no dash  ".toList) ≠ ("  no dash  ".toList, []) := by
  constructor <;> decide

/-- C4 amended: the splitter splits only at the first whitespace-dash-
whitespace delimiter (later dashes in the summary are never delimiters,
witnessed by an arbitrary remainder after the first dash); it returns
(code, summary) when the left side is a nonempty run of allowed code
characters, the whitespace-trimmed whole string paired with an empty
summary both when no delimiter exists and when the part left of the first
delimiter fails the code charset (guardrail branch, as in the input
a b - c, whose left side holds a space), so a trimmed input comes back
verbatim, and two empty strings for absent or empty input; the three spec
examples hold as stated. -/
theorem C4_splitter_amended :
    split_sign_type_and_summary none = ([], [])
    ∧ split_sign_type_and_summary (some []) = ([], [])
    ∧ (∀ s : List Char, '-' ∉ pyStrip s →
        split_sign_type_and_summary (some s) = (pyStrip s, []))
    ∧ (∀ code sp1 sp2 rest : List Char, code ≠ [] → code.all codeCharOK = true →
        (∀ c ∈ sp1, pyIsSpace c) → (∀ c ∈ sp2, pyIsSpace c) →
        split_sign_type_and_summary (some (code ++ sp1 ++ '-' :: (sp2 ++ rest)))
          = (code, pyStrip rest))
    ∧ split_sign_type_and_summary (some "D - Donor Room".toList)
        = ("D".toList, "Donor Room".toList)
    ∧ split_sign_type_and_summary (some "E5.W-12x18 DOT".toList)
        = ("E5.W".toList, "12x18 DOT".toList)
    ∧ split_sign_type_and_summary (some "no dash here".toList)
        = ("no dash here".toList, [])
    ∧ (∀ (s : List Char) (p : List Char × List Char), s ≠ [] →
        reSplitDashOnce (pyStrip s) = some p →
        ¬ (pyStrip p.1 ≠ [] ∧ (pyStrip p.1).all codeCharOK = true) →
        split_sign_type_and_summary (some s) = (pyStrip s, []))
    ∧ split_sign_type_and_summary (some "a b - c".toList) = ("a b - c".toList, []) := by
  exact ⟨rfl, rfl, split_of_no_dash, split_of_code_dash_rest,
    by decide, by decide, by decide,
    fun s p hs hp hg => split_of_guard_fail s hs p hp hg, by decide⟩

/-- Witness for C4: a code AB with single spaces around the first dash and
a remainder that itself contains a dash splits at the first dash only. -/
theorem C4_splitter_amended_witness :
    ("AB".toList ≠ [] ∧ ("AB".toList).all codeCharOK = true
      ∧ (∀ c ∈ " ".toList, pyIsSpace c)) ∧
    split_sign_type_and_summary
        (some ("AB".toList ++ " ".toList ++ '-' :: (" ".toList ++ "x-y z".toList)))
      = ("AB".toList, pyStrip "x-y z".toList) :=
  ⟨⟨by decide, by decide, by decide⟩,
    C4_splitter_amended.2.2.2.1 "AB".toList " ".toList " ".toList "x-y z".toList
      (by decide) (by decide) (by decide) (by decide)⟩

/-- C5: with 25 SignType entries against the template body rows 28-47 and
3 extra blank rows, the resizer returns displacement 8, every original
footer row lands 8 rows lower (so the body spans rows 28-55: 28 rows and
the footer is pushed down by 8), and each of the four fixed totals cells is
shifted by the displacement before being written: F48 to F56, F49 to F57,
F53 to F61 and the grand total F54 to F62, each receiving its value. -/
theorem C5_end_to_end_scenario (ws ws2 : Sheet) (sv shv iv gv : ℚ) :
    (adjust_body_rows_preserve_footer ws 25 28 47 3).2 = 8
    ∧ (∀ r c : Nat, 48 ≤ r →
        (adjust_body_rows_preserve_footer ws 25 28 47 3).1.cell (r + 8) c = ws.cell r c)
    ∧ shift_cell_ref SUBTOTAL_CELL 8 = ⟨['F'], 56⟩
    ∧ shift_cell_ref SHIPPING_CELL 8 = ⟨['F'], 57⟩
    ∧ shift_cell_ref INSTALL_CELL 8 = ⟨['F'], 61⟩
    ∧ shift_cell_ref TOTAL_CELL 8 = ⟨['F'], 62⟩
    ∧ ((write_totals_cells ws2 (some sv) (some shv) (some iv) (some gv) 8).cell 56 6).value
        = some (.num sv)
    ∧ ((write_totals_cells ws2 (some sv) (some shv) (some iv) (some gv) 8).cell 57 6).value
        = some (.num shv)
    ∧ ((write_totals_cells ws2 (some sv) (some shv) (some iv) (some gv) 8).cell 61 6).value
        = some (.num iv)
    ∧ ((write_totals_cells ws2 (some sv) (some shv) (some iv) (some gv) 8).cell 62 6).value
        = some (.num gv) := by
  have hd : 0 < (((25 : Nat) : Int) + ((3 : Nat) : Int))
      - (((47 : Nat) : Int) - ((28 : Nat) : Int) + 1) := by decide
  refine ⟨by rw [adjust_snd]; decide, ?_, by decide, by decide, by decide, by decide,
    ?_, ?_, ?_, ?_⟩
  · intro r c hr
    rw [adjust_fst_cell_insert ws 25 28 47 3 hd,
      if_neg (show ¬ r + 8 ≤ 47 by omega),
      if_neg (show ¬ r + 8 < 47 + 1 + ((((25 : Nat) : Int) + ((3 : Nat) : Int))
        - (((47 : Nat) : Int) - ((28 : Nat) : Int) + 1)).toNat by
          have : ((((25 : Nat) : Int) + ((3 : Nat) : Int))
            - (((47 : Nat) : Int) - ((28 : Nat) : Int) + 1)).toNat = 8 := by decide
          omega)]
    have htn : ((((25 : Nat) : Int) + ((3 : Nat) : Int))
      - (((47 : Nat) : Int) - ((28 : Nat) : Int) + 1)).toNat = 8 := by decide
    rw [htn, show r + 8 - 8 = r by omega]
  all_goals
    simp +decide [write_totals_cells, write_cell, shift_cell_ref,
      SUBTOTAL_CELL, SHIPPING_CELL, INSTALL_CELL, TOTAL_CELL, letterToCol]

/-- Witness for C5: the footer-shift clause instantiated at the first
footer row of a concrete sheet. -/
theorem C5_end_to_end_scenario_witness :
    ((48 : Nat) ≤ 48) ∧
    (adjust_body_rows_preserve_footer sampleSheet 25 28 47 3).1.cell (48 + 8) 1
      = sampleSheet.cell 48 1 :=
  ⟨by decide, (C5_end_to_end_scenario sampleSheet sampleSheet 1 2 3 4).2.1 48 1 (by decide)⟩

/-- C6: sumExtendedTotals yields absent for an absent or empty list, sums
exactly the extended_total fields that parse numerically (skipping
unparseable entries, as in the 10 / bad / 5 example summing to 15), and
yields absent rather than zero when no entry contributes a numeric
value. -/
theorem C6_sum_extended_totals :
    sum_extended none = none
    ∧ sum_extended (some []) = none
    ∧ sum_extended (some [⟨.num 10⟩, ⟨.str "bad".toList⟩, ⟨.num 5⟩]) = some 15
    ∧ (∀ items : List LineItem,
        items.filterMap (fun it => safe_num it.extended_total) = [] →
        sum_extended (some items) = none)
    ∧ (∀ items : List LineItem,
        items.filterMap (fun it => safe_num it.extended_total) ≠ [] →
        sum_extended (some items)
          = some ((items.filterMap (fun it => safe_num it.extended_total)).sum)) := by
  refine ⟨rfl, by simp [sum_extended], ?_, ?_, ?_⟩
  · simp +decide [sum_extended, safe_num, pyParseFloat, pyStrip, pyStripLeft, pyStripRight,
      digitsToNat, List.dropWhile, List.takeWhile, pyIsSpace, Char.isDigit]
    norm_num
  · intro items h
    rw [sum_extended_eq, if_pos h]
  · intro items h
    rw [sum_extended_eq, if_neg h]

/-- Witness for C6: the mixed example list has the nonempty parsed-value
list 10, 5 and sums to their total. -/
theorem C6_sum_extended_totals_witness :
    (([⟨.num 10⟩, ⟨.str "bad".toList⟩, ⟨.num 5⟩] : List LineItem).filterMap
        (fun it => safe_num it.extended_total) ≠ []) ∧
    sum_extended (some [⟨.num 10⟩, ⟨.str "bad".toList⟩, ⟨.num 5⟩])
      = some ((([⟨.num 10⟩, ⟨.str "bad".toList⟩, ⟨.num 5⟩] : List LineItem).filterMap
          (fun it => safe_num it.extended_total)).sum) :=
  ⟨by decide, C6_sum_extended_totals.2.2.2.2 _ (by decide)⟩

/-- C7: numify (safe_num) is a total function that raises nothing: null and
the empty string map to absent, an unparseable string maps to absent, a
parseable string maps to its parsed number, a number maps to itself, and
in particular the number 0 and the string 0 are present zero values, not
absent. -/
theorem C7_safe_num_total :
    safe_num .null = none
    ∧ safe_num (.str []) = none
    ∧ (∀ s : List Char, pyParseFloat s = none → safe_num (.str s) = none)
    ∧ (∀ (s : List Char) (q : ℚ), pyParseFloat s = some q → safe_num (.str s) = some q)
    ∧ (∀ q : ℚ, safe_num (.num q) = some q)
    ∧ safe_num (.num 0) = some 0
    ∧ safe_num (.str "0".toList) = some 0
    ∧ safe_num (.str "bad".toList) = none := by
  refine ⟨rfl, rfl, ?_, ?_, fun q => rfl, rfl, ?_, by decide⟩
  · intro s h
    by_cases hs : s = []
    · subst hs
      rfl
    · simp [safe_num, hs, h]
  · intro s q h
    have hs : s ≠ [] := by
      intro he
      subst he
      rw [show pyParseFloat [] = none from rfl] at h
      cases h
    simp [safe_num, hs, h]
  · simp +decide [safe_num, pyParseFloat, pyStrip, pyStripLeft, pyStripRight,
      digitsToNat, List.dropWhile, List.takeWhile, pyIsSpace, Char.isDigit]

/-- Witness for C7: the string xy fails the parse and safe_num degrades it
to absent without error. -/
theorem C7_safe_num_total_witness :
    pyParseFloat "xy".toList = none ∧ safe_num (.str "xy".toList) = none :=
  ⟨by decide, C7_safe_num_total.2.2.1 "xy".toList (by decide)⟩

/-- C8: for each of the four totals values, an absent value (as produced by
a missing field, an unparseable number or an empty ancillary list) leaves
its shifted footer cell exactly as the template left it, while a present
value is always written there; the writes are plain conditionals, so no
error can arise. -/
theorem C8_totals_soft_fail (ws : Sheet) (off : Int)
    (sub ship inst g : Option ℚ) (hoff : (0 : Int) < 48 + off) :
    (sub = none → (write_totals_cells ws sub ship inst g off).cell ((48 + off).toNat) 6
        = ws.cell ((48 + off).toNat) 6)
    ∧ (∀ v : ℚ, sub = some v →
        ((write_totals_cells ws sub ship inst g off).cell ((48 + off).toNat) 6).value
          = some (.num v))
    ∧ (ship = none → (write_totals_cells ws sub ship inst g off).cell ((49 + off).toNat) 6
        = ws.cell ((49 + off).toNat) 6)
    ∧ (∀ v : ℚ, ship = some v →
        ((write_totals_cells ws sub ship inst g off).cell ((49 + off).toNat) 6).value
          = some (.num v))
    ∧ (inst = none → (write_totals_cells ws sub ship inst g off).cell ((53 + off).toNat) 6
        = ws.cell ((53 + off).toNat) 6)
    ∧ (∀ v : ℚ, inst = some v →
        ((write_totals_cells ws sub ship inst g off).cell ((53 + off).toNat) 6).value
          = some (.num v))
    ∧ (g = none → (write_totals_cells ws sub ship inst g off).cell ((54 + off).toNat) 6
        = ws.cell ((54 + off).toNat) 6)
    ∧ (∀ v : ℚ, g = some v →
        ((write_totals_cells ws sub ship inst g off).cell ((54 + off).toNat) 6).value
          = some (.num v)) := by
  have hF : letterToCol ['F'] = 6 := by decide
  have e4849 : ((48 : Int) + off).toNat ≠ ((49 : Int) + off).toNat := by omega
  have e4853 : ((48 : Int) + off).toNat ≠ ((53 : Int) + off).toNat := by omega
  have e4854 : ((48 : Int) + off).toNat ≠ ((54 : Int) + off).toNat := by omega
  have e4948 : ((49 : Int) + off).toNat ≠ ((48 : Int) + off).toNat := by omega
  have e4953 : ((49 : Int) + off).toNat ≠ ((53 : Int) + off).toNat := by omega
  have e4954 : ((49 : Int) + off).toNat ≠ ((54 : Int) + off).toNat := by omega
  have e5348 : ((53 : Int) + off).toNat ≠ ((48 : Int) + off).toNat := by omega
  have e5349 : ((53 : Int) + off).toNat ≠ ((49 : Int) + off).toNat := by omega
  have e5354 : ((53 : Int) + off).toNat ≠ ((54 : Int) + off).toNat := by omega
  have e5448 : ((54 : Int) + off).toNat ≠ ((48 : Int) + off).toNat := by omega
  have e5449 : ((54 : Int) + off).toNat ≠ ((49 : Int) + off).toNat := by omega
  have e5453 : ((54 : Int) + off).toNat ≠ ((53 : Int) + off).toNat := by omega
  refine ⟨?_, ?_, ?_, ?_, ?_, ?_, ?_, ?_⟩
  · rintro rfl
    rcases ship with _ | shv <;> rcases inst with _ | iv <;> rcases g with _ | gv <;>
      simp [write_totals_cells, write_cell, shift_cell_ref, SUBTOTAL_CELL, SHIPPING_CELL,
        INSTALL_CELL, TOTAL_CELL, hF, e4849, e4853, e4854, e4948, e4953, e4954, e5348, e5349, e5354, e5448, e5449, e5453]
  · rintro v rfl
    rcases ship with _ | shv <;> rcases inst with _ | iv <;> rcases g with _ | gv <;>
      simp [write_totals_cells, write_cell, shift_cell_ref, SUBTOTAL_CELL, SHIPPING_CELL,
        INSTALL_CELL, TOTAL_CELL, hF, e4849, e4853, e4854, e4948, e4953, e4954, e5348, e5349, e5354, e5448, e5449, e5453]
  · rintro rfl
    rcases sub with _ | sv <;> rcases inst with _ | iv <;> rcases g with _ | gv <;>
      simp [write_totals_cells, write_cell, shift_cell_ref, SUBTOTAL_CELL, SHIPPING_CELL,
        INSTALL_CELL, TOTAL_CELL, hF, e4849, e4853, e4854, e4948, e4953, e4954, e5348, e5349, e5354, e5448, e5449, e5453]
  · rintro v rfl
    rcases sub with _ | sv <;> rcases inst with _ | iv <;> rcases g with _ | gv <;>
      simp [write_totals_cells, write_cell, shift_cell_ref, SUBTOTAL_CELL, SHIPPING_CELL,
        INSTALL_CELL, TOTAL_CELL, hF, e4849, e4853, e4854, e4948, e4953, e4954, e5348, e5349, e5354, e5448, e5449, e5453]
  · rintro rfl
    rcases sub with _ | sv <;> rcases ship with _ | shv <;> rcases g with _ | gv <;>
      simp [write_totals_cells, write_cell, shift_cell_ref, SUBTOTAL_CELL, SHIPPING_CELL,
        INSTALL_CELL, TOTAL_CELL, hF, e4849, e4853, e4854, e4948, e4953, e4954, e5348, e5349, e5354, e5448, e5449, e5453]
  · rintro v rfl
    rcases sub with _ | sv <;> rcases ship with _ | shv <;> rcases g with _ | gv <;>
      simp [write_totals_cells, write_cell, shift_cell_ref, SUBTOTAL_CELL, SHIPPING_CELL,
        INSTALL_CELL, TOTAL_CELL, hF, e4849, e4853, e4854, e4948, e4953, e4954, e5348, e5349, e5354, e5448, e5449, e5453]
  · rintro rfl
    rcases sub with _ | sv <;> rcases ship with _ | shv <;> rcases inst with _ | iv <;>
      simp [write_totals_cells, write_cell, shift_cell_ref, SUBTOTAL_CELL, SHIPPING_CELL,
        INSTALL_CELL, TOTAL_CELL, hF, e4849, e4853, e4854, e4948, e4953, e4954, e5348, e5349, e5354, e5448, e5449, e5453]
  · rintro v rfl
    rcases sub with _ | sv <;> rcases ship with _ | shv <;> rcases inst with _ | iv <;>
      simp [write_totals_cells, write_cell, shift_cell_ref, SUBTOTAL_CELL, SHIPPING_CELL,
        INSTALL_CELL, TOTAL_CELL, hF, e4849, e4853, e4854, e4948, e4953, e4954, e5348, e5349, e5354, e5448, e5449, e5453]

/-- Witness for C8 at offset 8: an absent subtotal leaves its shifted cell
untouched while the present shipping value lands in its shifted cell. -/
theorem C8_totals_soft_fail_witness :
    ((0 : Int) < 48 + 8) ∧
    (write_totals_cells sampleSheet none (some 5) (some 7) (some 100) 8).cell
        (((48 : Int) + 8).toNat) 6
      = sampleSheet.cell (((48 : Int) + 8).toNat) 6 :=
  ⟨by decide,
    (C8_totals_soft_fail sampleSheet 8 none (some 5) (some 7) (some 100) (by decide)).1 rfl⟩

/-- C10: before footer heights are restored, the assembler's approximate
autofit pass visits every row from 27 to the sheet's last used row and
assigns it height max(15, L * 15), with L the display-line count of the
row's column-C text (explicit newlines plus 60-character wrapping); for a
body-side row (above the shifted footer-height range starting at 48 +
displacement) the later footer-height restore does not touch that value,
so every body row's height is recomputed from content, never below 15,
rather than preserved from the template. -/
theorem C10_autofit_heights (w0 ws : Sheet) (off : Int) (r : Nat) (s : List Char)
    (h1 : 27 ≤ r) (h2 : r ≤ ws.maxRow) (h3 : (r : Int) < 48 + off)
    (h4 : (ws.cell r (letterToCol ['C'])).value = some (.str s)) :
    (restore_row_heights
        (approximate_autofit_rows ws 27 ws.maxRow [['C']] 15)
        (capture_row_heights w0 48 120) off).height r
      = some (max 15 (15 * (displayLineCount s : ℚ))) := by
  rw [restore_row_heights_untouched _ _ _ _ (fun p hp => by
    have hm := capture_row_heights_mem w0 48 120 p hp
    omega)]
  rw [approximate_autofit_rows_height, if_pos ⟨h1, h2⟩,
    autofit_row_lines_single ws r ['C'] s h4, pyLineCount_eq_display]
  exact congrArg some (qmax_line_helper (displayLineCount s))

/-- A concrete post-write sheet for the C10 witness: a two-line description
in C30, populated region ending at row 55. -/
def c10Sheet : Sheet :=
  { cell := fun r c =>
      if r = 30 ∧ c = 3 then ⟨some (.str "hello\nworld".toList), defaultStyle⟩ else blankCell
    height := fun _ => none
    merges := []
    maxCol := 6
    maxRow := 55 }

/-- Witness for C10: row 30's two-line column-C text gives the restored
pipeline height 30 at displacement 8. -/
theorem C10_autofit_heights_witness :
    ((27 : Nat) ≤ 30 ∧ (30 : Nat) ≤ c10Sheet.maxRow ∧ ((30 : Nat) : Int) < 48 + 8
      ∧ (c10Sheet.cell 30 (letterToCol ['C'])).value = some (.str "hello\nworld".toList)) ∧
    (restore_row_heights
        (approximate_autofit_rows c10Sheet 27 c10Sheet.maxRow [['C']] 15)
        (capture_row_heights sampleSheet 48 120) 8).height 30
      = some (max 15 (15 * (displayLineCount "hello\nworld".toList : ℚ))) :=
  ⟨⟨by decide, by decide, by decide, by decide⟩,
    C10_autofit_heights sampleSheet c10Sheet 8 30 "hello\nworld".toList
      (by decide) (by decide) (by decide) (by decide)⟩
